import Mathlib

/-!
Verification of the tiny-logger repository (TypeScript/Deno) against its
natural-language specification.

The repository contains three evolutionary versions of the same logger in
one source file.  The latest version (the `TinyLogger` class with rotation,
`writeFile`, `openFile`, `init`, `formatData`) is the converged design that
the specification describes; the earlier versions contribute the
`removeCommas`/hand-quoted CSV encoder and the `writeFile` catch branch
that the claims also cite.  All definitions below are shallow embeddings of
those source functions: strings are Lean `String`/`List Char`, the clock
(`new Date()`) and the instantiation stamp are lifted to explicit
parameters, file-system effects are modelled by explicit state
(`WState`) or by an explicit failure input.
-/

namespace TinyLog

/-- The `format` option: `'csv' | 'json'` (file extensions `.csv` / `.txt`). -/
inductive Format where
  | csv
  | json
deriving DecidableEq, Repr

/-- The `consoleOutput` option: `'raw' | 'pretty'`. -/
inductive ConsoleOutput where
  | raw
  | pretty
deriving DecidableEq, Repr

/-- The `LogLevels` enum of the latest version:
`Debug = 'DEBUG', Info = 'INFO', Warn = 'WARN', Error = 'ERROR'`. -/
inductive LogLevels where
  | Debug
  | Info
  | Warn
  | Error
deriving DecidableEq, Repr

/-- The string value carried by each `LogLevels` enum member. -/
def LogLevels.str : LogLevels → String
  | .Debug => "DEBUG"
  | .Info => "INFO"
  | .Warn => "WARN"
  | .Error => "ERROR"

/-- The `LogOptions` interface of the latest version.  Every field is
optional in TypeScript, hence `Option` here. -/
structure LogOptions where
  format : Option Format := none
  disableConsoleLogging : Option Bool := none
  consoleOutput : Option ConsoleOutput := none
  logLabel : Option String := none
  maxBytes : Option Nat := none
deriving DecidableEq, Repr

/-- `options?.format || 'csv'` — a present format tag is a non-empty string
and therefore truthy. -/
def resolveFormat : Option Format → Format
  | none => .csv
  | some f => f

/-- `options?.logLabel || 'log'` — the empty string is falsy in JavaScript,
so it also falls back to the default. -/
def resolveLabel : Option String → String
  | none => "log"
  | some l => if l = "" then ("log") else l

/-- `options?.consoleOutput || 'pretty'`. -/
def resolveConsoleOutput : Option ConsoleOutput → ConsoleOutput
  | none => .pretty
  | some c => c

/-- `options?.maxBytes || 10485760` — `0` is falsy in JavaScript. -/
def resolveMaxBytes : Option Nat → Nat
  | none => 10485760
  | some n => if n = 0 then 10485760 else n

/-- `options?.disableConsoleLogging || false`. -/
def resolveDCL : Option Bool → Bool
  | none => false
  | some b => b

/-- `isAlphanumeric` — the regex test `/^[A-Za-z0-9]*$/.test(s)`. -/
def isAlphanumeric (s : String) : Bool :=
  s.data.all fun c => c.isUpper || c.isLower || c.isDigit

/-- The two construction-time failures thrown by `init`. -/
inductive ConfigError where
  | bothSinksDisabled
  | invalidLabel
deriving DecidableEq, Repr

/-- The state of a `TinyLogger` instance (latest version): the private
fields that the claims are about. -/
structure TinyLogger where
  format : Format
  consoleOutput : ConsoleOutput
  logLabel : String
  maxBytes : Nat
  disableConsoleLogging : Bool
  enableFileLogging : Bool
  byteLength : Nat
  logFileNumber : Nat
deriving DecidableEq, Repr

/-- `private init()` — throws when console logging is disabled while file
logging is (still) disabled, throws on a non-alphanumeric label, and then
appends `.log` to any label other than the literal `log`. -/
def TinyLogger.init (lg : TinyLogger) : Except ConfigError TinyLogger :=
  if lg.disableConsoleLogging && !lg.enableFileLogging then
    .error .bothSinksDisabled
  else if !(isAlphanumeric lg.logLabel) then
    .error .invalidLabel
  else if lg.logLabel ≠ "log" then
    .ok { lg with logLabel := lg.logLabel ++ ".log" }
  else
    .ok lg

/-- The constructor `constructor(options?: LogOptions)`: resolves every
option with its `||` default, leaves `#enableFileLogging = false`,
`#byteLength = 0`, `#logFileNumber = 0`, and ends by calling `init`. -/
def mkTinyLogger (opts : Option LogOptions) : Except ConfigError TinyLogger :=
  TinyLogger.init
    { format := resolveFormat (opts.bind LogOptions.format)
      consoleOutput := resolveConsoleOutput (opts.bind LogOptions.consoleOutput)
      logLabel := resolveLabel (opts.bind LogOptions.logLabel)
      maxBytes := resolveMaxBytes (opts.bind LogOptions.maxBytes)
      disableConsoleLogging := resolveDCL (opts.bind LogOptions.disableConsoleLogging)
      enableFileLogging := false
      byteLength := 0
      logFileNumber := 0 }

/-- `public async enableFileLogging(path?)` — the only place the
file-logging flag is switched on; it acts on an already-constructed
instance. -/
def TinyLogger.turnOnFileLogging (lg : TinyLogger) : TinyLogger :=
  { lg with enableFileLogging := true }

/-- `getPathString` — normalizes a directory path to end with `/` unless it
is the literal `./`. -/
def getPathString (path : String) : String :=
  if path ≠ "./" then
    if path.data.getLast? = some '/' then path else path ++ "/"
  else path

/-! ## File session state and rotation (`openFile` / `writeFile`)

The latest version's `writeFile(data, callback)` adds the encoded record's
byte length to `#byteLength`, writes to the current handle while
`#byteLength < #maxBytes`, and otherwise closes the current handle, resets
`#byteLength` to `0`, increments `#logFileNumber`, opens
`<label>.<instantiation>_<n>.<ext>` and writes the record there.  The
session state below mirrors `#byteLength`, `#logFileNumber` and the files
touched by the session; a file's `size` is the number of bytes actually
appended to it, and `firstRecord` is specification instrumentation
recording the size of the record a rotation opened the file with
(`0` for the session's first file, which `openFile` opens empty). -/

/-- The file extension chosen from the format: `.csv` for csv, `.txt` for
json. -/
def fileExtension : Format → String
  | .csv => ".csv"
  | .json => ".txt"

/-- The name `openFile` gives the first file of a session:
`<label>.<instantiation>.<ext>` — no rotation suffix. -/
def firstFileName (label inst : String) (fmt : Format) : String :=
  label ++ "." ++ inst ++ fileExtension fmt

/-- The name `writeFile` gives the file opened by the `k`-th rotation:
`<label>.<instantiation>_<k>.<ext>`. -/
def rotatedFileName (label inst : String) (fmt : Format) (k : Nat) : String :=
  label ++ "." ++ inst ++ "_" ++ toString k ++ fileExtension fmt

/-- One physical log file of a session: its name, the bytes appended to it
(`size`), and — as specification instrumentation — the size of the record
it was opened with during a rotation (`0` for the session's first file). -/
structure GFile where
  name : String
  size : Nat
  firstRecord : Nat
deriving DecidableEq, Repr

/-- The mutable file-session state owned by `writeFile`: the counter
`#byteLength`, the rotation count `#logFileNumber`, the currently open
file, and the files already closed by rotations (in the order they were
closed). -/
structure WState where
  byteLength : Nat
  logFileNumber : Nat
  current : GFile
  closed : List GFile
deriving DecidableEq, Repr

/-- `openFile()` — the state right after `enableFileLogging` opens the
session's first file. -/
def openFileState (label inst : String) (fmt : Format) : WState :=
  { byteLength := 0
    logFileNumber := 0
    current := { name := firstFileName label inst fmt, size := 0, firstRecord := 0 }
    closed := [] }

/-- One call of `writeFile` on a record of encoded size `n`:
`this.#byteLength += n`; if the counter is still below `maxBytes` the
record goes to the current file, otherwise the current file is closed, the
counter is reset to `0`, `#logFileNumber` is incremented, a file named
with the new rotation count is opened and the record is written there
(without being added to the reset counter — exactly as in the source). -/
def writeFileStep (label inst : String) (fmt : Format) (maxBytes : Nat)
    (st : WState) (n : Nat) : WState :=
  if st.byteLength + n < maxBytes then
    { st with
      byteLength := st.byteLength + n
      current := { st.current with size := st.current.size + n } }
  else
    { byteLength := 0
      logFileNumber := st.logFileNumber + 1
      current :=
        { name := rotatedFileName label inst fmt (st.logFileNumber + 1)
          size := n
          firstRecord := n }
      closed := st.closed ++ [st.current] }

/-- A whole session: open the first file, then `writeFile` once per record
(given by its encoded byte size), in order. -/
def runSession (label inst : String) (fmt : Format) (maxBytes : Nat)
    (sizes : List Nat) : WState :=
  sizes.foldl (writeFileStep label inst fmt maxBytes) (openFileState label inst fmt)

/-- The names of all files the session has touched, in creation order
(closed files first, the currently open file last). -/
def namesOf (st : WState) : List String :=
  (st.closed ++ [st.current]).map GFile.name

/-- The session invariant maintained by `writeFileStep`: the byte counter
stays strictly below the threshold, the current file's true size is the
counter plus the (uncounted) record the file was opened with, the
session's first file was opened empty, and every closed file's final size
is below the threshold plus its uncounted opening record. -/
def SessionInv (maxBytes : Nat) (st : WState) : Prop :=
  st.byteLength < maxBytes ∧
  st.current.size = st.byteLength + st.current.firstRecord ∧
  (st.closed = [] → st.current.firstRecord = 0) ∧
  (∀ f ∈ st.closed, f.size < maxBytes + f.firstRecord) ∧
  (∀ f, st.closed.head? = some f → f.firstRecord = 0)

/-- The naming invariant: the files touched so far are, in creation order,
the suffix-free first file followed by the `_1 … _n` rotation files, and
the rotation counter counts the closed files. -/
def NameInv (label inst : String) (fmt : Format) (st : WState) : Prop :=
  namesOf st =
    (List.range (st.logFileNumber + 1)).map
      (fun k => if k = 0 then firstFileName label inst fmt
                else rotatedFileName label inst fmt k) ∧
  st.closed.length = st.logFileNumber

/-! ## Record encoder (`formatData`)

The csv branch of the latest `formatData` calls the deno std
`stringify([{time, level, source, message}], { columns, headers: false })`,
whose per-row behavior is: escape each value with `getEscapedString`
(wrap in double quotes, doubling any inner quote, exactly when the value
contains the separator `,`, a line feed, or a quote; otherwise emit it
verbatim), join the escaped values with the separator, and terminate the
row with CRLF.  The json branch is
`JSON.stringify({time, level, source, message}) + '\n'`.
The earlier version's `formatData` does the same with columns
`[level, date, subject, message]`, and the earliest version builds the row
by hand with every field quoted, quotes unescaped, and commas stripped
from the message by `removeCommas`.  Clock values (`new Date()`) are
lifted to explicit parameters. -/

/-- A csv value needs quoting when it contains the separator, a line feed,
or a quote (the test in std `getEscapedString`). -/
def csvNeedsQuote (s : List Char) : Bool :=
  s.any fun c => c = ',' || c = '\n' || c = '"'

/-- `str.replaceAll('"', '""')` on the character list. -/
def csvDoubleQuotes : List Char → List Char
  | [] => []
  | c :: r =>
    if c = '"' then '"' :: '"' :: csvDoubleQuotes r else c :: csvDoubleQuotes r

/-- std csv `getEscapedString` at the character level. -/
def getEscapedL (s : List Char) : List Char :=
  if csvNeedsQuote s then '"' :: (csvDoubleQuotes s ++ ['"']) else s

/-- One data row of std csv `stringify`: escaped values joined with `,`,
CRLF-terminated. -/
def stringifyRowL (fields : List (List Char)) : List Char :=
  List.intercalate [','] (fields.map getEscapedL) ++ ['\r', '\n']

/-- `String(value)` escaping used by `JSON.stringify` for one character:
quote and backslash get a backslash escape, the named control characters
get their short escapes, the remaining control characters below `0x20`
get `\u00XX` with lowercase hex, and everything else is emitted as is. -/
def jsonEscapeChar (c : Char) : List Char :=
  if c = '"' then ['\\', '"']
  else if c = '\\' then ['\\', '\\']
  else if c = Char.ofNat 8 then ['\\', 'b']
  else if c = Char.ofNat 9 then ['\\', 't']
  else if c = Char.ofNat 10 then ['\\', 'n']
  else if c = Char.ofNat 12 then ['\\', 'f']
  else if c = Char.ofNat 13 then ['\\', 'r']
  else if c.toNat < 32 then
    ['\\', 'u', '0', '0',
      (if c.toNat / 16 < 10 then Char.ofNat (48 + c.toNat / 16)
       else Char.ofNat (87 + c.toNat / 16)),
      (if c.toNat % 16 < 10 then Char.ofNat (48 + c.toNat % 16)
       else Char.ofNat (87 + c.toNat % 16))]
  else [c]

/-- `JSON.stringify` escaping of a whole string value. -/
def jsonEscapeL (s : List Char) : List Char :=
  (s.map jsonEscapeChar).flatten

/-- A JSON string literal: `"` + escaped body + `"`. -/
def jsonQuoteL (s : List Char) : List Char :=
  '"' :: (jsonEscapeL s ++ ['"'])

/-- `JSON.stringify({time, level, source, message})` for string values, in
key insertion order, with the trailing `'\n'` of the json branch. -/
def jsonLineL (time level source message : List Char) : List Char :=
  ("\x7b\"time\":").data ++ jsonQuoteL time ++
  (",\"level\":").data ++ jsonQuoteL level ++
  (",\"source\":").data ++ jsonQuoteL source ++
  (",\"message\":").data ++ jsonQuoteL message ++
  ("\x7d\n").data

/-- The latest version's `formatData(format, level, source, message)`, with
the timestamp `new Date().toISOString()` lifted to the parameter `time`. -/
def formatData (time : String) (format : Format) (level : LogLevels)
    (source message : String) : String :=
  match format with
  | .csv => ⟨stringifyRowL [time.data, (level.str).data, source.data, message.data]⟩
  | .json => ⟨jsonLineL time.data (level.str).data source.data message.data⟩

/-- The middle version's `formatData(format, level, subject, message)`:
csv columns `[level, date, subject, message]`; json object
`{level, date, subject, message}` terminated by the platform EOL
(`getEol()`), lifted to the parameter `eol`. -/
def formatData_v2 (date eol : String) (format : Format)
    (level subject message : String) : String :=
  match format with
  | .csv => ⟨stringifyRowL [level.data, date.data, subject.data, message.data]⟩
  | .json =>
    ⟨("\x7b\"level\":").data ++ jsonQuoteL level.data ++
     (",\"date\":").data ++ jsonQuoteL date.data ++
     (",\"subject\":").data ++ jsonQuoteL subject.data ++
     (",\"message\":").data ++ jsonQuoteL message.data ++
     ("\x7d").data ++ eol.data⟩

/-- The earliest version's `removeCommas`:
`s.replace(/[,]+/g, '')` removes every comma. -/
def removeCommas (s : String) : String :=
  ⟨s.data.filter fun c => c ≠ ','⟩

/-- The earliest version's `logLevel` union type `'info'|'warn'|'error'`. -/
inductive LogLevelV1 where
  | info
  | warn
  | error
deriving DecidableEq, Repr

/-- `l.toUpperCase()` on the three members of the union. -/
def LogLevelV1.upper : LogLevelV1 → String
  | .info => "INFO"
  | .warn => "WARN"
  | .error => "ERROR"

/-- The earliest version's hand-built row
`"${d}","${l.toUpperCase()}","${t}","${m}"\r\n` with `m` comma-stripped:
every field quoted, inner quotes not escaped. -/
def csvRow_v1 (d : String) (l : LogLevelV1) (t m : String) : String :=
  ⟨'"' :: d.data ++
   ('"' :: ',' :: '"' :: (l.upper).data) ++
   ('"' :: ',' :: '"' :: t.data) ++
   ('"' :: ',' :: '"' :: (removeCommas m).data) ++
   ['"', '\r', '\n']⟩

/-! ## Parsers for the two record layouts

These decode one record according to the layout the spec declares: a CSV
row (four fields, comma-separated, optionally quoted with doubled inner
quotes, CRLF-terminated) or one JSON object per line.  They exist on the
specification side, to state the round-trip claims. -/

/-- Body of a quoted csv field, after the opening quote: `""` is an
escaped quote, a lone `"` closes the field. -/
def parseQuotedBody : List Char → Option (List Char × List Char)
  | [] => none
  | c :: r =>
    if c = '"' then
      if r.head? = some '"' then
        (parseQuotedBody r.tail).map fun p => ('"' :: p.1, p.2)
      else some ([], r)
    else
      (parseQuotedBody r).map fun p => (c :: p.1, p.2)
termination_by l => l.length
decreasing_by
  · simp [List.length_tail]; omega
  · simp

/-- An unquoted csv field: everything up to a separator or the CRLF row
terminator (which stay in the remainder). -/
def parseBare : List Char → List Char × List Char
  | [] => ([], [])
  | c :: r =>
    if c = ',' then ([], c :: r)
    else if c = '\r' ∧ r.head? = some '\n' then ([], c :: r)
    else (c :: (parseBare r).1, (parseBare r).2)

/-- One csv field: quoted if it starts with a quote, bare otherwise. -/
def parseField (l : List Char) : Option (List Char × List Char) :=
  match l with
  | [] => some ([], [])
  | c :: r => if c = '"' then parseQuotedBody r else some (parseBare (c :: r))

/-- Consume the separator between two fields. -/
def expectComma (l : List Char) : Option (List Char) :=
  match l with
  | [] => none
  | c :: r => if c = ',' then some r else none

/-- One four-field CRLF-terminated csv record. -/
def parseCsvRecord4L (l : List Char) :
    Option (List Char × List Char × List Char × List Char) := do
  let (f1, r1) ← parseField l
  let r1 ← expectComma r1
  let (f2, r2) ← parseField r1
  let r2 ← expectComma r2
  let (f3, r3) ← parseField r2
  let r3 ← expectComma r3
  let (f4, r4) ← parseField r3
  if r4 = ['\r', '\n'] then pure (f1, f2, f3, f4) else none

/-- String-level wrapper of `parseCsvRecord4L`. -/
def parseCsvRecord4 : String → Option (String × String × String × String)
  | ⟨l⟩ => (parseCsvRecord4L l).map fun q => (⟨q.1⟩, ⟨q.2.1⟩, ⟨q.2.2.1⟩, ⟨q.2.2.2⟩)

/-- Consume an expected literal chunk. -/
def expects : List Char → List Char → Option (List Char)
  | [], l => some l
  | _ :: _, [] => none
  | p :: ps, c :: l => if c = p then expects ps l else none

/-- One hexadecimal digit (either case). -/
def hexVal (c : Char) : Option Nat :=
  if 48 ≤ c.toNat ∧ c.toNat ≤ 57 then some (c.toNat - 48)
  else if 97 ≤ c.toNat ∧ c.toNat ≤ 102 then some (c.toNat - 87)
  else if 65 ≤ c.toNat ∧ c.toNat ≤ 70 then some (c.toNat - 55)
  else none

/-- Four hexadecimal digits to their value. -/
def hexVal4 (l : List Char) : Option Nat :=
  match l with
  | [h1, h2, h3, h4] =>
    (hexVal h1).bind fun a =>
      (hexVal h2).bind fun b =>
        (hexVal h3).bind fun c =>
          (hexVal h4).map fun d => ((a * 16 + b) * 16 + c) * 16 + d
  | _ => none

/-- Body of a JSON string literal, after the opening quote: handles the
standard backslash escapes including `\uXXXX`. -/
def parseJsonStringBody : List Char → Option (List Char × List Char)
  | [] => none
  | c :: r =>
    if c = '"' then some ([], r)
    else if c = '\\' then
      if r.head? = some '"' then
        (parseJsonStringBody r.tail).map fun p => ('"' :: p.1, p.2)
      else if r.head? = some '\\' then
        (parseJsonStringBody r.tail).map fun p => ('\\' :: p.1, p.2)
      else if r.head? = some '/' then
        (parseJsonStringBody r.tail).map fun p => ('/' :: p.1, p.2)
      else if r.head? = some 'b' then
        (parseJsonStringBody r.tail).map fun p => (Char.ofNat 8 :: p.1, p.2)
      else if r.head? = some 'f' then
        (parseJsonStringBody r.tail).map fun p => (Char.ofNat 12 :: p.1, p.2)
      else if r.head? = some 'n' then
        (parseJsonStringBody r.tail).map fun p => (Char.ofNat 10 :: p.1, p.2)
      else if r.head? = some 'r' then
        (parseJsonStringBody r.tail).map fun p => (Char.ofNat 13 :: p.1, p.2)
      else if r.head? = some 't' then
        (parseJsonStringBody r.tail).map fun p => (Char.ofNat 9 :: p.1, p.2)
      else if r.head? = some 'u' then
        (hexVal4 (r.tail.take 4)).bind fun n =>
          (parseJsonStringBody (r.tail.drop 4)).map fun p =>
            (Char.ofNat n :: p.1, p.2)
      else none
    else (parseJsonStringBody r).map fun p => (c :: p.1, p.2)
termination_by l => l.length
decreasing_by all_goals simp_arith [List.length_tail, List.length_drop]

/-- A JSON string literal including its opening quote. -/
def parseJsonString (l : List Char) : Option (List Char × List Char) :=
  match l with
  | [] => none
  | c :: r => if c = '"' then parseJsonStringBody r else none

/-- One line-object record with the latest version's key layout
`{time, level, source, message}` and trailing newline. -/
def parseJsonLine4L (l : List Char) :
    Option (List Char × List Char × List Char × List Char) := do
  let r ← expects ("\x7b\"time\":").data l
  let (t, r) ← parseJsonString r
  let r ← expects (",\"level\":").data r
  let (lv, r) ← parseJsonString r
  let r ← expects (",\"source\":").data r
  let (sc, r) ← parseJsonString r
  let r ← expects (",\"message\":").data r
  let (m, r) ← parseJsonString r
  if r = ("\x7d\n").data then pure (t, lv, sc, m) else none

/-- String-level wrapper of `parseJsonLine4L`. -/
def parseJsonLine4 : String → Option (String × String × String × String)
  | ⟨l⟩ => (parseJsonLine4L l).map fun q => (⟨q.1⟩, ⟨q.2.1⟩, ⟨q.2.2.1⟩, ⟨q.2.2.2⟩)

/-! ## The middle version's per-call `writeFile` (error handling model)

`TinyLogger.writeFile(data, logLabel, format)` of the middle version:
throws on an invalid label, derives the file name, then
`try { await Deno.writeTextFile(f, data, {append: true}) }
 catch (e) { console.error(e.message) }`.
The file system is modelled by the explicit input `fsError`: `none` means
the append succeeds, `some msg` means it fails with that message.  The
caller observes the `V2Result`; `consoleErrors` is the diagnostic channel. -/

/-- What a call of the middle version's `writeFile` did: the append that
reached the file (if any) and the diagnostic lines sent to
`console.error`. -/
structure WriteEffect where
  written : Option (String × String)
  consoleErrors : List String
deriving DecidableEq, Repr

/-- The outcome a caller of `writeFile` observes: a normal return carrying
the effect, or an exception propagating out of the call. -/
inductive V2Result where
  | ok (eff : WriteEffect)
  | thrown (msg : String)
deriving DecidableEq, Repr

/-- The middle version's `writeFile`, with the file system's answer for
this call supplied as `fsError`. -/
def writeFile_v2 (logLabel instTime : String) (format : Format)
    (fsError : Option String) (data : String) : V2Result :=
  if !(isAlphanumeric logLabel) then
    .thrown ("Error: TinyLogger loglabel contains invalid characters. Label can be alphanumeric characters only.")
  else
    let l := if logLabel ≠ "log" then logLabel ++ ".log" else logLabel
    let f := l ++ "." ++ instTime ++
      (match format with | .csv => ".csv" | .json => ".txt")
    match fsError with
    | some e => .ok { written := none, consoleErrors := [e] }
    | none => .ok { written := some (f, data), consoleErrors := [] }

/-- The record layout claimed for the delimited format: the four fields in
the order `[level, timestamp, subject, message]`, every field quoted,
comma-separated, CRLF-terminated.  (Stated from the spec's words, to be
compared with what `formatData` emits.) -/
def claimedDelimitedRow (level time subject message : String) : String :=
  "\"" ++ level ++ "\",\"" ++ time ++ "\",\"" ++ subject ++ "\",\"" ++
    message ++ "\"\r\n"

theorem sessionInv_openFileState (label inst : String) (fmt : Format)
    {maxBytes : Nat} (hmax : 1 ≤ maxBytes) :
    SessionInv maxBytes (openFileState label inst fmt) := by
  refine ⟨hmax, ?_, ?_, ?_, ?_⟩ <;> simp [openFileState]

theorem sessionInv_step (label inst : String) (fmt : Format) {maxBytes : Nat}
    (hmax : 1 ≤ maxBytes) {st : WState} (h : SessionInv maxBytes st) (n : Nat) :
    SessionInv maxBytes (writeFileStep label inst fmt maxBytes st n) := by
  obtain ⟨h1, h2, h3, h4, h5⟩ := h
  unfold writeFileStep
  by_cases hc : st.byteLength + n < maxBytes
  · rw [if_pos hc]
    exact ⟨hc, by simp [h2]; omega, h3, h4, h5⟩
  · rw [if_neg hc]
    refine ⟨hmax, by simp, by simp, ?_, ?_⟩
    · intro f hf
      rcases List.mem_append.1 hf with hf | hf
      · exact h4 f hf
      · rcases List.mem_singleton.1 hf with rfl
        simpa [h2] using Nat.add_lt_add_right h1 st.current.firstRecord
    · intro f hf
      cases hcl : st.closed with
      | nil =>
        rw [hcl] at hf
        simp at hf
        exact hf ▸ h3 hcl
      | cons g gs =>
        rw [hcl] at hf
        simp at hf
        exact h5 f (by rw [hcl]; simpa using hf)

theorem sessionInv_foldl (label inst : String) (fmt : Format) {maxBytes : Nat}
    (hmax : 1 ≤ maxBytes) (sizes : List Nat) :
    ∀ st : WState, SessionInv maxBytes st →
      SessionInv maxBytes (sizes.foldl (writeFileStep label inst fmt maxBytes) st) := by
  induction sizes with
  | nil => intro st h; simpa using h
  | cons a l ih =>
    intro st h
    simpa using ih _ (sessionInv_step label inst fmt hmax h a)

theorem sessionInv_run (label inst : String) (fmt : Format) {maxBytes : Nat}
    (hmax : 1 ≤ maxBytes) (sizes : List Nat) :
    SessionInv maxBytes (runSession label inst fmt maxBytes sizes) :=
  sessionInv_foldl label inst fmt hmax sizes _
    (sessionInv_openFileState label inst fmt hmax)

theorem nameInv_step (label inst : String) (fmt : Format) (maxBytes : Nat)
    {st : WState} (h : NameInv label inst fmt st) (n : Nat) :
    NameInv label inst fmt (writeFileStep label inst fmt maxBytes st n) := by
  obtain ⟨h1, h2⟩ := h
  unfold namesOf at h1
  rw [List.map_append] at h1
  unfold writeFileStep
  by_cases hc : st.byteLength + n < maxBytes
  · rw [if_pos hc]
    refine ⟨?_, h2⟩
    unfold namesOf
    rw [List.map_append]
    simpa using h1
  · rw [if_neg hc]
    refine ⟨?_, by simpa using h2⟩
    unfold namesOf
    simp only [List.map_append]
    rw [List.range_succ, List.map_append, ← h1]
    simp [List.append_assoc]

theorem nameInv_foldl (label inst : String) (fmt : Format) (maxBytes : Nat)
    (sizes : List Nat) :
    ∀ st : WState, NameInv label inst fmt st →
      NameInv label inst fmt
        (sizes.foldl (writeFileStep label inst fmt maxBytes) st) := by
  induction sizes with
  | nil => intro st h; simpa using h
  | cons a l ih =>
    intro st h
    simpa using ih _ (nameInv_step label inst fmt maxBytes h a)

theorem nameInv_run (label inst : String) (fmt : Format) (maxBytes : Nat)
    (sizes : List Nat) :
    NameInv label inst fmt (runSession label inst fmt maxBytes sizes) := by
  apply nameInv_foldl
  constructor
  · simp [openFileState, namesOf, List.range_succ]
  · simp [openFileState]

/-! ## Shared constructor lemmas -/

theorem mkTinyLogger_dcl_error (opts : Option LogOptions)
    (h : resolveDCL (opts.bind LogOptions.disableConsoleLogging) = true) :
    mkTinyLogger opts = .error ConfigError.bothSinksDisabled := by
  unfold mkTinyLogger TinyLogger.init
  simp [h]

theorem isAlphanumeric_eq_false_of_bad {l : String}
    (h : ∃ c ∈ l.data, (c.isUpper || c.isLower || c.isDigit) = false) :
    isAlphanumeric l = false := by
  obtain ⟨c, hc, hbad⟩ := h
  rw [isAlphanumeric]
  rw [Bool.eq_false_iff]
  intro hall
  rw [List.all_eq_true] at hall
  rw [hall c hc] at hbad
  exact Bool.true_eq_false.mp hbad

theorem data_ne_nil_of_mem {l : String} {c : Char} (hc : c ∈ l.data) : l ≠ "" := by
  intro h
  rw [h] at hc
  simp at hc

/-! ## Round-trip lemmas: csv layout -/

theorem mk_data (s : String) : (⟨s.data⟩ : String) = s := rfl

theorem parseBare_roundtrip (s rest : List Char)
    (hs : ∀ c ∈ s, ¬c = ',' ∧ ¬c = '\n')
    (hrest : rest.head? = some ',' ∨
      (rest.head? = some '\r' ∧ rest.tail.head? = some '\n')) :
    parseBare (s ++ rest) = (s, rest) := by
  induction s with
  | nil =>
    rw [List.nil_append]
    rcases hrest with h | ⟨h1, h2⟩
    · cases rest with
      | nil => simp at h
      | cons c r =>
        simp at h
        subst h
        simp [parseBare]
    · cases rest with
      | nil => simp at h1
      | cons c r =>
        simp at h1
        subst h1
        rw [parseBare, if_neg (by decide), if_pos ⟨rfl, by simpa using h2⟩]
  | cons c s' ih =>
    rw [List.cons_append, parseBare]
    have hc := hs c (by simp)
    have hcr : ¬(c = '\r' ∧ (s' ++ rest).head? = some '\n') := by
      rintro ⟨-, hh⟩
      cases s' with
      | cons d s'' =>
        simp at hh
        exact (hs d (by simp)).2 hh
      | nil =>
        rw [List.nil_append] at hh
        rcases hrest with h | ⟨h1, -⟩
        · rw [h] at hh; simp at hh
        · rw [h1] at hh; simp at hh
    rw [if_neg hc.1, if_neg hcr, ih (fun c hc => hs c (by simp [hc]))]

theorem parseQuotedBody_roundtrip (s rest : List Char)
    (hrest : rest.head? ≠ some '"') :
    parseQuotedBody (csvDoubleQuotes s ++ '"' :: rest) = some (s, rest) := by
  induction s with
  | nil =>
    cases rest with
    | nil => simp [csvDoubleQuotes, parseQuotedBody]
    | cons c2 r2 =>
      have hc2 : ¬c2 = '"' := by simpa using hrest
      simp [csvDoubleQuotes, parseQuotedBody, hc2]
  | cons c s' ih =>
    by_cases hc : c = '"'
    · subst hc
      simp only [csvDoubleQuotes, if_pos rfl, List.cons_append]
      simp [parseQuotedBody, ih]
    · simp only [csvDoubleQuotes, if_neg hc, List.cons_append]
      simp [parseQuotedBody, hc, ih]

theorem csvNoQuoteChars {s : List Char} (h : csvNeedsQuote s = false) :
    ∀ c ∈ s, ¬c = ',' ∧ ¬c = '\n' ∧ ¬c = '"' := by
  intro c hc
  rw [csvNeedsQuote, List.any_eq_false] at h
  have h2 := h c hc
  simp at h2
  tauto

theorem parseField_roundtrip (s rest : List Char)
    (hrest : rest.head? = some ',' ∨
      (rest.head? = some '\r' ∧ rest.tail.head? = some '\n')) :
    parseField (getEscapedL s ++ rest) = some (s, rest) := by
  have hrq : rest.head? ≠ some '"' := by
    rcases hrest with h | ⟨h, -⟩ <;> rw [h] <;> decide
  by_cases hq : csvNeedsQuote s = true
  · rw [getEscapedL, if_pos hq, List.cons_append, List.append_assoc,
      List.singleton_append, parseField, if_pos rfl]
    exact parseQuotedBody_roundtrip s rest hrq
  · have hq' : csvNeedsQuote s = false := by simpa using hq
    have hchars := csvNoQuoteChars hq'
    rw [getEscapedL, if_neg (by simp [hq'])]
    cases s with
    | nil =>
      rw [List.nil_append]
      cases rest with
      | nil => rcases hrest with h | ⟨h, -⟩ <;> simp at h
      | cons c r =>
        have hc : ¬c = '"' := by
          rcases hrest with h | ⟨h, -⟩
          · simp at h; subst h; decide
          · simp at h; subst h; decide
        rw [parseField, if_neg hc]
        have := parseBare_roundtrip [] (c :: r) (by simp) hrest
        rw [List.nil_append] at this
        rw [this]
    | cons c s'' =>
      have hc := hchars c (by simp)
      rw [List.cons_append, parseField, if_neg hc.2.2]
      rw [← List.cons_append]
      rw [parseBare_roundtrip (c :: s'') rest
        (fun d hd => ⟨(hchars d hd).1, (hchars d hd).2.1⟩) hrest]

theorem stringifyRowL_eq (a b c d : List Char) :
    stringifyRowL [a, b, c, d] =
      getEscapedL a ++ (',' :: (getEscapedL b ++ (',' :: (getEscapedL c ++
        (',' :: (getEscapedL d ++ ['\r', '\n'])))))) := by
  simp [stringifyRowL, List.intercalate, List.intersperse, List.append_assoc]

theorem expectComma_cons (l : List Char) : expectComma (',' :: l) = some l := by
  rw [expectComma, if_pos rfl]

theorem parseCsvRecord4L_roundtrip (a b c d : List Char) :
    parseCsvRecord4L (stringifyRowL [a, b, c, d]) = some (a, b, c, d) := by
  rw [stringifyRowL_eq]
  have h1 := parseField_roundtrip a
    (',' :: (getEscapedL b ++ (',' :: (getEscapedL c ++
      (',' :: (getEscapedL d ++ ['\r', '\n'])))))) (Or.inl rfl)
  have h2 := parseField_roundtrip b
    (',' :: (getEscapedL c ++ (',' :: (getEscapedL d ++ ['\r', '\n']))))
    (Or.inl rfl)
  have h3 := parseField_roundtrip c (',' :: (getEscapedL d ++ ['\r', '\n']))
    (Or.inl rfl)
  have h4 := parseField_roundtrip d ['\r', '\n'] (Or.inr ⟨rfl, rfl⟩)
  simp [parseCsvRecord4L, h1, h2, h3, h4, expectComma_cons]

/-! ## Round-trip lemmas: json layout -/

theorem hexVal_lowDigit (n : Nat) (h : n < 16) :
    hexVal (if n < 10 then Char.ofNat (48 + n) else Char.ofNat (87 + n)) =
      some n := by
  interval_cases n <;> decide

theorem hexVal_zero : hexVal '0' = some 0 := by decide

theorem hexVal4_eq (h1 h2 h3 h4 : Char) :
    hexVal4 [h1, h2, h3, h4] =
      (hexVal h1).bind fun a =>
        (hexVal h2).bind fun b =>
          (hexVal h3).bind fun c =>
            (hexVal h4).map fun d => ((a * 16 + b) * 16 + c) * 16 + d := rfl

theorem parseJsonStringBody_roundtrip (s rest : List Char) :
    parseJsonStringBody (jsonEscapeL s ++ '"' :: rest) = some (s, rest) := by
  induction s with
  | nil => simp [jsonEscapeL, parseJsonStringBody]
  | cons c s' ih =>
    have hesc : jsonEscapeL (c :: s') = jsonEscapeChar c ++ jsonEscapeL s' := by
      simp [jsonEscapeL]
    rw [hesc, List.append_assoc]
    by_cases h1 : c = '"'
    · subst h1
      simp [jsonEscapeChar, parseJsonStringBody, ih]
    · by_cases h2 : c = '\\'
      · subst h2
        simp [jsonEscapeChar, parseJsonStringBody, ih]
      · by_cases h3 : c = Char.ofNat 8
        · subst h3
          simp [jsonEscapeChar, parseJsonStringBody, ih]
        · by_cases h4 : c = Char.ofNat 9
          · subst h4
            simp [jsonEscapeChar, parseJsonStringBody, ih]
          · by_cases h5 : c = Char.ofNat 10
            · subst h5
              simp [jsonEscapeChar, parseJsonStringBody, ih]
            · by_cases h6 : c = Char.ofNat 12
              · subst h6
                simp [jsonEscapeChar, parseJsonStringBody, ih]
              · by_cases h7 : c = Char.ofNat 13
                · subst h7
                  simp [jsonEscapeChar, parseJsonStringBody, ih]
                · by_cases h8 : c.toNat < 32
                  · have hd1 := hexVal_lowDigit (c.toNat / 16) (by omega)
                    have hd2 := hexVal_lowDigit (c.toNat % 16)
                      (Nat.mod_lt _ (by norm_num))
                    have harith :
                        ((0 * 16 + 0) * 16 + c.toNat / 16) * 16 + c.toNat % 16 =
                          c.toNat := by omega
                    have harith2 : c.toNat / 16 * 16 + c.toNat % 16 = c.toNat := by
                      omega
                    simp [jsonEscapeChar, h1, h2, h3, h4, h5, h6, h7, if_pos h8,
                      parseJsonStringBody, hexVal4_eq, hexVal_zero, hd1, hd2,
                      harith, harith2, Char.ofNat_toNat, ih]
                  · simp [jsonEscapeChar, h1, h2, h3, h4, h5, h6, h7, h8,
                      parseJsonStringBody, ih]

theorem expects_append (p r : List Char) : expects p (p ++ r) = some r := by
  induction p with
  | nil => simp [expects]
  | cons c ps ih => simp [expects, ih]

theorem expects_nil (l : List Char) : expects [] l = some l := by
  simp [expects]

theorem expects_cons (c : Char) (ps l : List Char) :
    expects (c :: ps) (c :: l) = expects ps l := by
  simp [expects]

theorem parseJsonString_quote (x rest : List Char) :
    parseJsonString (jsonQuoteL x ++ rest) = some (x, rest) := by
  rw [jsonQuoteL, List.cons_append, List.append_assoc, List.singleton_append]
  simp [parseJsonString, parseJsonStringBody_roundtrip]

theorem parseJsonLine4L_roundtrip (t l s m : List Char) :
    parseJsonLine4L (jsonLineL t l s m) = some (t, l, s, m) := by
  simp [parseJsonLine4L, jsonLineL, List.append_assoc, List.cons_append,
    expects_nil, expects_cons, parseJsonString_quote]

/-! ## Round-trip lemmas: the earliest version's hand-quoted row -/

theorem csvDoubleQuotes_eq_self {s : List Char} (h : ∀ c ∈ s, ¬c = '"') :
    csvDoubleQuotes s = s := by
  induction s with
  | nil => rfl
  | cons c r ih =>
    rw [csvDoubleQuotes, if_neg (h c (by simp)),
      ih (fun d hd => h d (by simp [hd]))]

theorem quoted_field_noquote (s rest : List Char) (hs : ∀ c ∈ s, ¬c = '"')
    (hrest : rest.head? ≠ some '"') :
    parseQuotedBody (s ++ '"' :: rest) = some (s, rest) := by
  have h := parseQuotedBody_roundtrip s rest hrest
  rwa [csvDoubleQuotes_eq_self hs] at h

theorem csvRow_v1_list (d U T M : List Char)
    (hd : ∀ c ∈ d, ¬c = '"') (hU : ∀ c ∈ U, ¬c = '"')
    (hT : ∀ c ∈ T, ¬c = '"') (hM : ∀ c ∈ M, ¬c = '"') :
    parseCsvRecord4L
      ('"' :: (d ++ '"' :: ',' :: '"' :: (U ++ '"' :: ',' :: '"' ::
        (T ++ '"' :: ',' :: '"' :: (M ++ ['"', '\r', '\n']))))) =
      some (d, U, T, M) := by
  have q1 := quoted_field_noquote d
    (',' :: '"' :: (U ++ '"' :: ',' :: '"' ::
      (T ++ '"' :: ',' :: '"' :: (M ++ ['"', '\r', '\n'])))) hd (by simp)
  have q2 := quoted_field_noquote U
    (',' :: '"' :: (T ++ '"' :: ',' :: '"' :: (M ++ ['"', '\r', '\n'])))
    hU (by simp)
  have q3 := quoted_field_noquote T
    (',' :: '"' :: (M ++ ['"', '\r', '\n'])) hT (by simp)
  have q4 := quoted_field_noquote M ['\r', '\n'] hM (by simp)
  simp [parseCsvRecord4L, parseField, q1, q2, q3, q4, expectComma_cons]

/-! ## Claims -/

/-- C1 counterexample: with `maxBytes = 100` and four 60-byte records, the
file opened by the first rotation receives the 60-byte triggering record
(uncounted), then a further counted 60-byte record, and is closed by the
second rotation with 120 bytes — a file that was current before a rotation
ends with final size above `maxBytes`, refuting the claim's bound. -/
theorem claim_C1_counterexample :
    ¬ (∀ f ∈ (runSession ("log") ("T") Format.csv 100 [60, 60, 60, 60]).closed,
        f.size ≤ 100) := by
  decide

/-- C1 (amended): whenever `#byteLength + candidateRecordSize` would exceed
`maxBytes`, `writeFile` rotates before writing: the triggering record goes
in full to the newly opened rotation file and the counter is reset.  But
because the triggering record's bytes are never added to the reset
counter, a file closed by a rotation is only guaranteed a final size
strictly below `maxBytes` plus the size of the record it was opened with;
the unqualified bound `≤ maxBytes` holds for the session's first file
(the head of the closed list), which was opened empty. -/
theorem claim_C1_rotation (label inst : String) (fmt : Format) (maxBytes : Nat)
    (hmax : 1 ≤ maxBytes) (sizes : List Nat) :
    (∀ (st : WState) (n : Nat), maxBytes < st.byteLength + n →
      (writeFileStep label inst fmt maxBytes st n).current.name =
          rotatedFileName label inst fmt (st.logFileNumber + 1) ∧
      (writeFileStep label inst fmt maxBytes st n).current.size = n ∧
      (writeFileStep label inst fmt maxBytes st n).byteLength = 0 ∧
      (writeFileStep label inst fmt maxBytes st n).closed =
          st.closed ++ [st.current]) ∧
    (∀ f ∈ (runSession label inst fmt maxBytes sizes).closed,
      f.size < maxBytes + f.firstRecord) ∧
    (∀ f, (runSession label inst fmt maxBytes sizes).closed.head? = some f →
      f.size ≤ maxBytes) := by
  refine ⟨?_, ?_, ?_⟩
  · intro st n hgt
    have hc : ¬(st.byteLength + n < maxBytes) := by omega
    unfold writeFileStep
    rw [if_neg hc]
    exact ⟨rfl, rfl, rfl, rfl⟩
  · exact (sessionInv_run label inst fmt hmax sizes).2.2.2.1
  · intro f hf
    have hinv := sessionInv_run label inst fmt hmax sizes
    have h0 := hinv.2.2.2.2 f hf
    have hmem : f ∈ (runSession label inst fmt maxBytes sizes).closed := by
      cases hcl : (runSession label inst fmt maxBytes sizes).closed with
      | nil => rw [hcl] at hf; simp at hf
      | cons g gs =>
        rw [hcl] at hf
        simp at hf
        exact List.mem_cons.mpr (Or.inl hf.symm)
    have hsz := hinv.2.2.2.1 f hmem
    omega

/-- Witness for C1's amended theorem: in the four-record session above, the
head of the closed list (the session's first file) ends with 60 ≤ 100
bytes. -/
theorem claim_C1_witness :
    ({ name := firstFileName ("log") ("T") Format.csv, size := 60,
       firstRecord := 0 } : GFile).size ≤ 100 :=
  (claim_C1_rotation ("log") ("T") Format.csv 100 (by decide) [60, 60, 60, 60]).2.2
    { name := firstFileName ("log") ("T") Format.csv, size := 60, firstRecord := 0 }
    (by decide)

/-- C2 counterexample: with `maxBytes = 10`, a single 10-byte record
triggers a rotation; immediately afterwards the counter is 0 while the new
current file holds the 10 bytes of the triggering record — the counter
does not account for the bytes written to the new file, refuting the
claim's last sentence. -/
theorem claim_C2_counterexample :
    (runSession ("log") ("T") Format.csv 10 [10]).logFileNumber = 1 ∧
    (runSession ("log") ("T") Format.csv 10 [10]).byteLength = 0 ∧
    (runSession ("log") ("T") Format.csv 10 [10]).current.size = 10 ∧
    ¬((runSession ("log") ("T") Format.csv 10 [10]).byteLength =
        (runSession ("log") ("T") Format.csv 10 [10]).current.size) := by
  decide

/-- C2 (amended): `#byteLength` is a non-negative counter that never
exceeds the true size of the current file; with non-empty records it is
reset to 0 exactly when a rotation occurs, and a reset always closes the
prior file first.  However, immediately after a rotation the counter is 0
and excludes the triggering record's bytes, which were written
(uncounted) to the new file. -/
theorem claim_C2_counter (label inst : String) (fmt : Format) (maxBytes : Nat)
    (hmax : 1 ≤ maxBytes) (sizes : List Nat) :
    (runSession label inst fmt maxBytes sizes).byteLength ≤
      (runSession label inst fmt maxBytes sizes).current.size ∧
    (∀ (st : WState) (n : Nat), 1 ≤ n →
      ((writeFileStep label inst fmt maxBytes st n).byteLength = 0 ↔
        maxBytes ≤ st.byteLength + n)) ∧
    (∀ (st : WState) (n : Nat), maxBytes ≤ st.byteLength + n →
      (writeFileStep label inst fmt maxBytes st n).closed =
        st.closed ++ [st.current] ∧
      (writeFileStep label inst fmt maxBytes st n).byteLength = 0 ∧
      (writeFileStep label inst fmt maxBytes st n).current.size = n) := by
  refine ⟨?_, ?_, ?_⟩
  · have h := (sessionInv_run label inst fmt hmax sizes).2.1
    omega
  · intro st n hn
    unfold writeFileStep
    by_cases hc : st.byteLength + n < maxBytes
    · rw [if_pos hc]; simp; omega
    · rw [if_neg hc]; simp; omega
  · intro st n h
    have hc : ¬(st.byteLength + n < maxBytes) := by omega
    unfold writeFileStep
    rw [if_neg hc]
    exact ⟨rfl, rfl, rfl⟩

/-- Witness for C2's amended theorem: a concrete two-record session whose
counter stays below the current file's true size. -/
theorem claim_C2_witness :
    (runSession ("log") ("T") Format.csv 10 [4, 4]).byteLength ≤
      (runSession ("log") ("T") Format.csv 10 [4, 4]).current.size :=
  (claim_C2_counter ("log") ("T") Format.csv 10 (by decide) [4, 4]).1

/-- C3 counterexample: at a concrete record, the latest delimited encoder
emits `time,INFO,app,hello` + CRLF: the fields are in the order
`[time, level, source, message]` (not `[level, timestamp, subject,
message]`) and no field is quoted; the middle version's encoder (level
first) also leaves every field unquoted, so neither matches the claimed
all-quoted level-first row. -/
theorem claim_C3_counterexample :
    formatData ("2023-01-21T00:34:15Z") Format.csv LogLevels.Info ("app") ("hello") =
      "2023-01-21T00:34:15Z,INFO,app,hello\r\n" ∧
    formatData ("2023-01-21T00:34:15Z") Format.csv LogLevels.Info ("app") ("hello") ≠
      claimedDelimitedRow ("INFO") ("2023-01-21T00:34:15Z") ("app") ("hello") ∧
    formatData_v2 ("2023-01-21T00:34:15Z") ("\n") Format.csv ("INFO") ("app") ("hello") ≠
      claimedDelimitedRow ("INFO") ("2023-01-21T00:34:15Z") ("app") ("hello") := by
  refine ⟨?_, ?_, ?_⟩ <;> decide

/-- C3 (amended): the delimited encoder produces one comma-separated,
CRLF-terminated row that parses back to exactly its four fields — in the
order `[time, level, source, message]` for the latest version and
`[level, date, subject, message]` for the middle version — and a field is
wrapped in quotes (with inner quotes doubled) exactly when it contains a
comma, a line feed, or a quote, not unconditionally. -/
theorem claim_C3_delimited_layout :
    (∀ (time source message : String) (level : LogLevels),
      parseCsvRecord4 (formatData time Format.csv level source message) =
        some (time, level.str, source, message)) ∧
    (∀ (time source message : String) (level : LogLevels), ∃ p : List Char,
      (formatData time Format.csv level source message).data =
        p ++ ['\r', '\n']) ∧
    (∀ date eol level subject message : String,
      parseCsvRecord4 (formatData_v2 date eol Format.csv level subject message) =
        some (level, date, subject, message)) ∧
    (∀ s : List Char, (getEscapedL s).head? = some '"' ↔
      csvNeedsQuote s = true) := by
  refine ⟨?_, ?_, ?_, ?_⟩
  · intro time source message level
    have h := parseCsvRecord4L_roundtrip time.data (LogLevels.str level).data
      source.data message.data
    show (parseCsvRecord4L (stringifyRowL [time.data, (LogLevels.str level).data,
        source.data, message.data])).map
        (fun q => (⟨q.1⟩, ⟨q.2.1⟩, ⟨q.2.2.1⟩, ⟨q.2.2.2⟩)) =
      some (time, level.str, source, message)
    rw [h]
    rfl
  · intro time source message level
    exact ⟨List.intercalate [','] ([time.data, (LogLevels.str level).data,
      source.data, message.data].map getEscapedL), rfl⟩
  · intro date eol level subject message
    have h := parseCsvRecord4L_roundtrip level.data date.data subject.data
      message.data
    show (parseCsvRecord4L (stringifyRowL [level.data, date.data,
        subject.data, message.data])).map
        (fun q => (⟨q.1⟩, ⟨q.2.1⟩, ⟨q.2.2.1⟩, ⟨q.2.2.2⟩)) =
      some (level, date, subject, message)
    rw [h]
    rfl
  · intro s
    by_cases hq : csvNeedsQuote s = true
    · simp [getEscapedL, hq]
    · have hq' : csvNeedsQuote s = false := by simpa using hq
      simp only [getEscapedL, hq', if_neg Bool.false_ne_true, hq']
      constructor
      · intro hh
        exfalso
        cases s with
        | nil => simp at hh
        | cons c r =>
          simp at hh
          exact (csvNoQuoteChars hq' c (by simp)).2.2 hh
      · intro hh
        exact absurd hh (by simp [hq'])

/-- C4 counterexample: at a concrete failing append (`fsError = some
"disk full"`), the middle version's `writeFile` returns normally to its
caller: no error value or exception reaches the caller, the record is not
written anywhere, and the failure is reported only on the console
diagnostic channel — refuting the claim that a `WriteFailure` is surfaced
to the caller of the log call. -/
theorem claim_C4_counterexample :
    writeFile_v2 ("app") ("2023-01-21T00-34-15") Format.csv (some ("disk full"))
        "\"INFO\",\"t\",\"app\",\"m\"\r\n" =
      V2Result.ok { written := none, consoleErrors := ["disk full"] } := by
  decide

/-- C4 (amended): when the underlying append fails, `writeFile` catches
the error and reports it only on the console diagnostic channel; the call
returns normally to its caller with the in-flight record dropped, and no
exception escapes (the process does not crash). -/
theorem claim_C4_error_swallowed (logLabel instTime : String) (fmt : Format)
    (err data : String) (h : isAlphanumeric logLabel = true) :
    writeFile_v2 logLabel instTime fmt (some err) data =
      V2Result.ok { written := none, consoleErrors := [err] } := by
  unfold writeFile_v2
  simp [h]

/-- Witness for C4's amended theorem at a concrete failing write. -/
theorem claim_C4_witness :
    writeFile_v2 ("log") ("T") Format.csv (some ("EPERM")) ("row") =
      V2Result.ok { written := none, consoleErrors := ["EPERM"] } :=
  claim_C4_error_swallowed ("log") ("T") Format.csv ("EPERM") ("row") (by decide)

/-- C5: during construction `#enableFileLogging` is always `false`, so a
configuration that disables console logging disables both sinks; `init`
then throws the both-sinks-disabled configuration error and construction
produces no logger value at all. -/
theorem claim_C5_both_disabled (opts : Option LogOptions)
    (h : resolveDCL (opts.bind LogOptions.disableConsoleLogging) = true) :
    mkTinyLogger opts = .error ConfigError.bothSinksDisabled :=
  mkTinyLogger_dcl_error opts h

/-- Witness for C5 at the concrete configuration
`{disableConsoleLogging: true}`. -/
theorem claim_C5_witness :
    mkTinyLogger (some { disableConsoleLogging := some true }) =
      .error ConfigError.bothSinksDisabled :=
  claim_C5_both_disabled (some { disableConsoleLogging := some true }) rfl

/-- C6: a supplied label containing a character outside `[A-Za-z0-9]`
always makes construction fail (with the `invalidLabel` configuration
error whenever the sinks check passes — that check runs first in `init`),
while an absent or empty label resolves to the default `"log"` and
construction succeeds with that label (console sink enabled, as any
successful construction requires). -/
theorem claim_C6_label_validation :
    (∀ (opts : Option LogOptions) (l : String),
      opts.bind LogOptions.logLabel = some l →
      (∃ c ∈ l.data, (c.isUpper || c.isLower || c.isDigit) = false) →
      (mkTinyLogger opts).isOk = false) ∧
    (∀ (opts : Option LogOptions) (l : String),
      opts.bind LogOptions.logLabel = some l →
      (∃ c ∈ l.data, (c.isUpper || c.isLower || c.isDigit) = false) →
      resolveDCL (opts.bind LogOptions.disableConsoleLogging) = false →
      mkTinyLogger opts = .error ConfigError.invalidLabel) ∧
    (∀ opts : Option LogOptions,
      (opts.bind LogOptions.logLabel = none ∨
        opts.bind LogOptions.logLabel = some ("")) →
      resolveDCL (opts.bind LogOptions.disableConsoleLogging) = false →
      (mkTinyLogger opts).toOption.map TinyLogger.logLabel = some ("log")) := by
  have key : ∀ (opts : Option LogOptions) (l : String),
      opts.bind LogOptions.logLabel = some l →
      (∃ c ∈ l.data, (c.isUpper || c.isLower || c.isDigit) = false) →
      resolveDCL (opts.bind LogOptions.disableConsoleLogging) = false →
      mkTinyLogger opts = .error ConfigError.invalidLabel := by
    intro opts l hl hbad hdcl
    obtain ⟨c, hc, hcb⟩ := hbad
    have hne : l ≠ "" := data_ne_nil_of_mem hc
    have hres : resolveLabel (opts.bind LogOptions.logLabel) = l := by
      rw [hl]
      simp [resolveLabel, hne]
    have hfalse : isAlphanumeric l = false :=
      isAlphanumeric_eq_false_of_bad ⟨c, hc, hcb⟩
    unfold mkTinyLogger TinyLogger.init
    simp [hdcl, hres, hfalse]
  refine ⟨?_, key, ?_⟩
  · intro opts l hl hbad
    by_cases hdcl :
        resolveDCL (opts.bind LogOptions.disableConsoleLogging) = true
    · rw [mkTinyLogger_dcl_error opts hdcl]
      rfl
    · rw [key opts l hl hbad (by simpa using hdcl)]
      rfl
  · intro opts habs hdcl
    have hres : resolveLabel (opts.bind LogOptions.logLabel) = "log" := by
      rcases habs with h | h <;> simp [h, resolveLabel]
    have halph : isAlphanumeric ("log") = true := by decide
    unfold mkTinyLogger TinyLogger.init
    simp [hdcl, hres, halph, Except.toOption]

/-- Witness for C6 at the concrete invalid label `"a b"`. -/
theorem claim_C6_witness :
    mkTinyLogger (some { logLabel := some ("a b") }) =
      .error ConfigError.invalidLabel :=
  claim_C6_label_validation.2.1 (some { logLabel := some ("a b") }) ("a b") rfl
    (by decide) rfl

/-- C7: for a valid alphanumeric label other than the literal `"log"`,
`init` stores the stem `label ++ ".log"` (used verbatim in every file name
of the session); for the label `"log"`, an empty label, or no label, the
stem stays `"log"` with no suffix appended. -/
theorem claim_C7_stem :
    (∀ (opts : Option LogOptions) (l : String),
      opts.bind LogOptions.logLabel = some l →
      isAlphanumeric l = true → l ≠ "" → l ≠ "log" →
      resolveDCL (opts.bind LogOptions.disableConsoleLogging) = false →
      (mkTinyLogger opts).toOption.map TinyLogger.logLabel =
        some (l ++ ".log")) ∧
    (∀ opts : Option LogOptions,
      (opts.bind LogOptions.logLabel = none ∨
        opts.bind LogOptions.logLabel = some ("") ∨
        opts.bind LogOptions.logLabel = some ("log")) →
      resolveDCL (opts.bind LogOptions.disableConsoleLogging) = false →
      (mkTinyLogger opts).toOption.map TinyLogger.logLabel = some ("log")) := by
  constructor
  · intro opts l hl halph hne hnelog hdcl
    have hres : resolveLabel (opts.bind LogOptions.logLabel) = l := by
      rw [hl]
      simp [resolveLabel, hne]
    unfold mkTinyLogger TinyLogger.init
    simp [hdcl, hres, halph, hnelog, Except.toOption]
  · intro opts habs hdcl
    have hres : resolveLabel (opts.bind LogOptions.logLabel) = "log" := by
      rcases habs with h | h | h <;> simp [h, resolveLabel]
    have halph : isAlphanumeric ("log") = true := by decide
    unfold mkTinyLogger TinyLogger.init
    simp [hdcl, hres, halph, Except.toOption]

/-- Witness for C7 at the concrete label `"svc"`: the stored stem is
`"svc.log"`. -/
theorem claim_C7_witness :
    (mkTinyLogger (some { logLabel := some ("svc") })).toOption.map
        TinyLogger.logLabel = some ("svc" ++ ".log") :=
  claim_C7_stem.1 (some { logLabel := some ("svc") }) ("svc") rfl (by decide)
    (by decide) (by decide) rfl

/-- C8: in every session the first file opened is
`<stem>.<instantiation>.<ext>` with no rotation suffix, and the file
created by the `k`-th rotation is `<stem>.<instantiation>_<k>.<ext>`: the
names of all files touched, in creation order, are exactly the range-map
over the 1-based rotation count, which equals the number of closed
files. -/
theorem claim_C8_naming (label inst : String) (fmt : Format) (maxBytes : Nat)
    (sizes : List Nat) :
    namesOf (runSession label inst fmt maxBytes sizes) =
      (List.range
        ((runSession label inst fmt maxBytes sizes).logFileNumber + 1)).map
        (fun k => if k = 0 then firstFileName label inst fmt
                  else rotatedFileName label inst fmt k) ∧
    (runSession label inst fmt maxBytes sizes).closed.length =
      (runSession label inst fmt maxBytes sizes).logFileNumber ∧
    (openFileState label inst fmt).current.name =
      firstFileName label inst fmt :=
  ⟨(nameInv_run label inst fmt maxBytes sizes).1,
   (nameInv_run label inst fmt maxBytes sizes).2, rfl⟩

/-- C9 counterexample: the earliest version's encoder quotes every field
but does not escape quotes inside them; with the message `a"b` (whose
double quote survives `removeCommas`), the emitted row cannot be parsed
back per the CSV layout at all — the claim's round-trip fails beyond the
declared comma-stripping. -/
theorem claim_C9_counterexample :
    parseCsvRecord4 (csvRow_v1 ("D") LogLevelV1.info ("T") ("a\"b")) = none := by
  have h : csvRow_v1 ("D") LogLevelV1.info ("T") ("a\"b") =
      ⟨['"', 'D', '"', ',', '"', 'I', 'N', 'F', 'O', '"', ',', '"', 'T', '"',
        ',', '"', 'a', '"', 'b', '"', '\r', '\n']⟩ := by decide
  rw [h]
  simp [parseCsvRecord4, parseCsvRecord4L, parseField, parseQuotedBody,
    parseBare, expectComma]

/-- C9 (amended): the std-based encoders round-trip exactly: a csv record
of the latest version parses back to its `[time, level, source, message]`
fields for all inputs, and a json record parses back to its four fields
for all inputs; the earliest hand-quoted encoder round-trips to
`(timestamp, uppercased level, subject, comma-stripped message)` only when
none of the free-text fields contains a double quote. -/
theorem claim_C9_roundtrip :
    (∀ (time source message : String) (level : LogLevels),
      parseCsvRecord4 (formatData time Format.csv level source message) =
        some (time, level.str, source, message)) ∧
    (∀ (time source message : String) (level : LogLevels),
      parseJsonLine4 (formatData time Format.json level source message) =
        some (time, level.str, source, message)) ∧
    (∀ (d t m : String) (l : LogLevelV1),
      (∀ c ∈ d.data, ¬c = '"') → (∀ c ∈ t.data, ¬c = '"') →
      (∀ c ∈ m.data, ¬c = '"') →
      parseCsvRecord4 (csvRow_v1 d l t m) =
        some (d, l.upper, t, removeCommas m)) := by
  refine ⟨?_, ?_, ?_⟩
  · intro time source message level
    have h := parseCsvRecord4L_roundtrip time.data (LogLevels.str level).data
      source.data message.data
    show (parseCsvRecord4L (stringifyRowL [time.data, (LogLevels.str level).data,
        source.data, message.data])).map
        (fun q => (⟨q.1⟩, ⟨q.2.1⟩, ⟨q.2.2.1⟩, ⟨q.2.2.2⟩)) =
      some (time, level.str, source, message)
    rw [h]
    rfl
  · intro time source message level
    have h := parseJsonLine4L_roundtrip time.data (LogLevels.str level).data
      source.data message.data
    show (parseJsonLine4L (jsonLineL time.data (LogLevels.str level).data
        source.data message.data)).map
        (fun q => (⟨q.1⟩, ⟨q.2.1⟩, ⟨q.2.2.1⟩, ⟨q.2.2.2⟩)) =
      some (time, level.str, source, message)
    rw [h]
    rfl
  · intro d t m l hd ht hm
    have hU : ∀ c ∈ (LogLevelV1.upper l).data, ¬c = '"' := by
      cases l <;> decide
    have hM : ∀ c ∈ (removeCommas m).data, ¬c = '"' := by
      intro c hc
      exact hm c (List.mem_of_mem_filter hc)
    have h := csvRow_v1_list d.data (LogLevelV1.upper l).data t.data
      (removeCommas m).data hd hU ht hM
    show (parseCsvRecord4L ('"' :: d.data ++
        ('"' :: ',' :: '"' :: (LogLevelV1.upper l).data) ++
        ('"' :: ',' :: '"' :: t.data) ++
        ('"' :: ',' :: '"' :: (removeCommas m).data) ++
        ['"', '\r', '\n'])).map
        (fun q => (⟨q.1⟩, ⟨q.2.1⟩, ⟨q.2.2.1⟩, ⟨q.2.2.2⟩)) =
      some (d, l.upper, t, removeCommas m)
    rw [show ('"' :: d.data ++
        ('"' :: ',' :: '"' :: (LogLevelV1.upper l).data) ++
        ('"' :: ',' :: '"' :: t.data) ++
        ('"' :: ',' :: '"' :: (removeCommas m).data) ++
        ['"', '\r', '\n']) =
      ('"' :: (d.data ++ '"' :: ',' :: '"' :: ((LogLevelV1.upper l).data ++
        '"' :: ',' :: '"' :: (t.data ++ '"' :: ',' :: '"' ::
          ((removeCommas m).data ++ ['"', '\r', '\n']))))) from by
      simp [List.append_assoc]]
    rw [h]
    rfl

/-- Witness for C9's amended theorem: the earliest encoder's row for a
quote-free record with a comma in the message parses back to the
comma-stripped message. -/
theorem claim_C9_witness :
    parseCsvRecord4 (csvRow_v1 ("D") LogLevelV1.info ("T") ("a,b")) =
      some ("D", LogLevelV1.info.upper, "T", removeCommas ("a,b")) :=
  claim_C9_roundtrip.2.2 ("D") ("T") ("a,b") LogLevelV1.info (by decide) (by decide)
    (by decide)

/-- C10: `#enableFileLogging` is `false` throughout construction (only
`enableFileLogging` on a constructed instance flips it), so any options
with `disableConsoleLogging: true` make the constructor throw the
both-sinks-disabled error regardless of the other options; consequently
every successfully constructed instance has console logging enabled (and
file logging still disabled). -/
theorem claim_C10_console_always_on :
    (∀ opts : LogOptions, opts.disableConsoleLogging = some true →
      mkTinyLogger (some opts) = .error ConfigError.bothSinksDisabled) ∧
    (∀ (opts : Option LogOptions) (lg : TinyLogger),
      mkTinyLogger opts = .ok lg →
      lg.disableConsoleLogging = false ∧ lg.enableFileLogging = false) := by
  constructor
  · intro opts h
    apply mkTinyLogger_dcl_error
    simp [h, resolveDCL]
  · intro opts lg h
    by_cases h1 : resolveDCL (opts.bind LogOptions.disableConsoleLogging) = true
    · rw [mkTinyLogger_dcl_error opts h1] at h
      exact absurd h (by simp)
    · have h1' : resolveDCL (opts.bind LogOptions.disableConsoleLogging) =
          false := by simpa using h1
      unfold mkTinyLogger TinyLogger.init at h
      simp [h1'] at h
      split at h
      · exact absurd h (by simp)
      · split at h
        · injection h with h
          subst h
          exact ⟨rfl, rfl⟩
        · injection h with h
          subst h
          exact ⟨rfl, rfl⟩

/-- Witness for C10 at a concrete configuration that also sets a label:
the sinks check still fires first. -/
theorem claim_C10_witness :
    mkTinyLogger
      (some { disableConsoleLogging := some true, logLabel := some ("svc") }) =
      .error ConfigError.bothSinksDisabled :=
  claim_C10_console_always_on.1
    { disableConsoleLogging := some true, logLabel := some ("svc") } rfl

end TinyLog
